import Mathlib

set_option autoImplicit false

/-!
Verification of the Person/Face identity-management subsystem (Identity
Service) of this photo-library backend.

The service orchestration body (`person.service.ts`) is not present under
`src/`; only its unit test file is.  The definitions below are therefore
modelled from the specification (spec.md §3, §4, §6, §7), with the concrete
behaviour pinned by the unit tests in
`src/server/src/domain/person/person.service.spec.ts` wherever the two
disagree (the tests are code of the repository and take precedence):
  * `getById` on a missing person throws a Bad-Request-class error
    (test line 83: `rejects.toBeInstanceOf(BadRequestException)`);
  * `updatePeople` reports `UNKNOWN` (not `NOT_FOUND`) for an item whose
    person id does not resolve (test lines 211-219).

Stores and the job dispatcher are external collaborators (spec §2, §6); they
are embedded as explicit state (`Store`) plus observable traces of emitted
job descriptors (`Job`) and collaborator calls (`RepoCall`).
-/

/-- Person identity record (spec §3): unique id, owner id, display name
(may be empty meaning unnamed), optional birth date, nullable thumbnail
path, visibility flag. -/
structure Person where
  id : String
  ownerId : String
  name : String
  birthDate : Option String
  thumbnailPath : Option String
  isHidden : Bool
deriving DecidableEq

/-- Detected face instance (spec §3): owning asset id, associated person id,
bounding box in source-image pixel space, source image dimensions.  The
`thumbnailPath` field is the face's stored thumbnail location used by the
feature-face selection (spec §4.2: "set the Person's thumbnail path from
that face's stored thumbnail location"). -/
structure AssetFace where
  assetId : String
  personId : String
  thumbnailPath : String
  boundingBoxX1 : Int
  boundingBoxY1 : Int
  boundingBoxX2 : Int
  boundingBoxY2 : Int
  imageWidth : Int
  imageHeight : Int
deriving DecidableEq

/-- Media asset, referenced by id and owned by exactly one account (spec §3). -/
structure Asset where
  id : String
  ownerId : String
deriving DecidableEq

/-- Durable state of the external Person/Media stores (spec §2), plus a flag
for fault injection at the `reassignFaces` boundary (spec §4.4 step 6 allows
any error to arise there). -/
structure Store where
  persons : List Person
  faces : List AssetFace
  assets : List Asset
  reassignFacesOk : Bool
deriving DecidableEq

/-- Public projection of a Person (spec §4.2 step 5): id, name, birth date,
thumbnail path, hidden flag. -/
structure PersonResponse where
  id : String
  name : String
  birthDate : Option String
  thumbnailPath : Option String
  isHidden : Bool
deriving DecidableEq

/-- Result of the list-people query (spec §4.1): total count of qualifying
Persons, count of those not hidden, and the listed people. -/
structure PeopleResponse where
  total : Nat
  visible : Nat
  people : List PersonResponse
deriving DecidableEq

/-- Error taxonomy for single-entity operations (spec §7). -/
inductive ServiceError where
  | badRequest
  | notFound
deriving DecidableEq

/-- Per-item failure reason for batch/merge outcomes (spec §7, and
`BulkIdErrorReason` referenced by the unit tests). -/
inductive BulkIdErrorReason where
  | duplicate
  | noPermission
  | notFound
  | unknown
deriving DecidableEq

/-- Per-item outcome of a batch or merge operation (spec §9: tagged variant
`Success | Failure` collected in input order). -/
structure BulkIdResponse where
  id : String
  success : Bool
  error : Option BulkIdErrorReason
deriving DecidableEq

/-- Job descriptors emitted to the Job Dispatcher (spec §6). -/
inductive Job where
  | searchIndexAsset (ids : List String)
  | searchRemoveFace (assetId personId : String)
  | generateFaceThumbnail (assetId personId : String)
      (x1 x2 y1 y2 imageWidth imageHeight : Int)
  | deleteFiles (files : List String)
deriving DecidableEq

/-- Observable calls into the store / blob collaborators, recorded so that
"no write was attempted" / "never calls the blob reader" properties are
statable. -/
inductive RepoCall where
  | getById (ownerId id : String)
  | getAssets (ownerId id : String)
  | getFaceById (assetId personId : String)
  | updatePerson (u : String)
  | prepareReassignFaces (newPersonId oldPersonId : String)
  | reassignFaces (newPersonId oldPersonId : String)
  | deletePerson (id : String)
  | createReadStream (path contentType : String)
deriving DecidableEq

/-- Partial update sent to the Person Store's `update` primitive: only the
supplied fields change (pinned by test line 140: `update` is called with
exactly the supplied subset plus the id). -/
structure PersonUpdate where
  id : String
  name : Option String
  birthDate : Option String
  isHidden : Option Bool
  thumbnailPath : Option String
deriving DecidableEq

/-- Partial update accepted by the single-update operation (spec §4.2):
any subset of name, birth date, hidden flag, or a feature-face selection. -/
structure PersonUpdateDto where
  name : Option String
  birthDate : Option String
  isHidden : Option Bool
  featureFaceAssetId : Option String
deriving DecidableEq

/-- One item of a bulk update: its own person id plus a partial update
(spec §4.3). -/
structure PersonUpdateItem where
  id : String
  dto : PersonUpdateDto
deriving DecidableEq

/-- Modelled from the spec: Person Store lookup `getById(ownerId, id)`
(spec §6) — the Person with that id owned by the caller, if any. -/
def Store.repoGetById (s : Store) (ownerId id : String) : Option Person :=
  s.persons.find? (fun p => p.ownerId == ownerId && p.id == id)

/-- Number of Faces of person `pid` in the store. -/
def Store.faceCountOf (s : Store) (pid : String) : Nat :=
  s.faces.countP (fun f => f.personId == pid)

/-- Modelled from the spec: Person Store `getAll(ownerId, {minimumFaceCount})`
(spec §4.1, §6) — all Persons owned by the caller with at least the minimum
number of associated Faces, ordered with named/visible persons first and
hidden persons last. -/
def Store.repoGetAll (s : Store) (ownerId : String) (minimumFaceCount : Nat) :
    List Person :=
  let qualifying := s.persons.filter
    (fun p => p.ownerId == ownerId && decide (minimumFaceCount ≤ s.faceCountOf p.id))
  let named := qualifying.filter (fun p => !p.isHidden && p.name != "")
  let unnamed := qualifying.filter (fun p => !p.isHidden && p.name == "")
  let hiddenOnes := qualifying.filter (fun p => p.isHidden)
  named ++ unnamed ++ hiddenOnes

/-- Modelled from the spec: Media/Person Store `getAssets(ownerId, id)`
(spec §4.1, §6) — all Assets linked through that Person's Faces, owned by
the caller. -/
def Store.repoGetAssets (s : Store) (ownerId personId : String) : List Asset :=
  s.assets.filter
    (fun x => x.ownerId == ownerId &&
      s.faces.any (fun f => f.personId == personId && f.assetId == x.id))

/-- Modelled from the spec: Person Store `getFaceById({assetId, personId})`
(spec §6). -/
def Store.repoGetFaceById (s : Store) (assetId personId : String) :
    Option AssetFace :=
  s.faces.find? (fun f => f.assetId == assetId && f.personId == personId)

/-- Apply a partial update to one Person record: only supplied fields change. -/
def Person.applyUpdate (p : Person) (u : PersonUpdate) : Person :=
  { p with
    name := u.name.getD p.name
    birthDate := u.birthDate.or p.birthDate
    isHidden := u.isHidden.getD p.isHidden
    thumbnailPath := u.thumbnailPath.or p.thumbnailPath }

/-- Modelled from the spec: Person Store `update(partial)` (spec §6) — the
record with the partial's id has the supplied fields changed. -/
def Store.updatePersonRec (s : Store) (u : PersonUpdate) : Store :=
  { s with persons := s.persons.map (fun q => if q.id == u.id then q.applyUpdate u else q) }

/-- Conflicting assets of a merge (spec §4.4 step 2, glossary): the set of
asset ids where both the primary (new) and the secondary (old) Person
already have a Face. -/
def Store.conflictAssetIds (s : Store) (newPersonId oldPersonId : String) :
    List String :=
  (((s.faces.filter (fun f => f.personId == oldPersonId)).map (fun f => f.assetId)).filter
    (fun aId => s.faces.any (fun f => f.personId == newPersonId && f.assetId == aId))).dedup

/-- Modelled from the spec: Person Store `prepareReassignFaces` (spec §6,
§4.4 step 2) — returns the conflicting asset ids; the secondary person's
face references on those assets become void (removed) once superseded, so
that only the remaining Faces are reassigned in step 3. -/
def Store.prepareReassign (s : Store) (newPersonId oldPersonId : String) :
    List String × Store :=
  let conflicts := s.conflictAssetIds newPersonId oldPersonId
  let keep := fun (f : AssetFace) =>
    !(f.personId == oldPersonId && decide (f.assetId ∈ conflicts))
  (conflicts, { s with faces := s.faces.filter keep })

/-- Modelled from the spec: Person Store `reassignFaces` (spec §6, §4.4
step 3) — every remaining Face of the old Person now points at the new one. -/
def Store.applyReassign (s : Store) (newPersonId oldPersonId : String) : Store :=
  let move := fun (f : AssetFace) =>
    if f.personId == oldPersonId then { f with personId := newPersonId } else f
  { s with faces := s.faces.map move }

/-- Modelled from the spec: Person Store `delete(Person)` (spec §6). -/
def Store.deletePersonRec (s : Store) (id : String) : Store :=
  { s with persons := s.persons.filter (fun p => p.id != id) }

/-- Number of Faces of person `pid` on asset `aId`. -/
def Store.facesOfOn (s : Store) (pid aId : String) : Nat :=
  s.faces.countP (fun f => f.personId == pid && f.assetId == aId)

/-- Public projection of a Person (spec §4.2 step 5): id, name, birth date,
thumbnail path, hidden flag; the name is rendered as a string (an unnamed
Person keeps the empty string, never null). -/
def mapPerson (p : Person) : PersonResponse :=
  { id := p.id, name := p.name, birthDate := p.birthDate
    thumbnailPath := p.thumbnailPath, isHidden := p.isHidden }

/-- Outcome of one service operation: its result (or typed failure), the
store afterwards, the job descriptors emitted, and the collaborator calls
made. -/
structure OpOutcome (α : Type) where
  result : Except ServiceError α
  store : Store
  jobs : List Job
  calls : List RepoCall

/-- Outcome of a batch operation: one `BulkIdResponse` per input item
(spec §4.3, §7 — never a call-level failure), plus store / jobs / calls. -/
structure BatchResult where
  results : List BulkIdResponse
  store : Store
  jobs : List Job
  calls : List RepoCall

namespace PersonService

/-- Modelled from the spec: list-people query (spec §4.1) — qualifying
Persons annotated with a thumbnail path; `total` counts them, `visible`
counts the non-hidden ones, and the listed people exclude hidden Persons
unless `withHidden` is explicitly true (behaviour pinned by test lines
43-80). -/
def getAll (s : Store) (authId : String) (withHidden : Option Bool) :
    PeopleResponse :=
  let people := s.repoGetAll authId 1
  let persons := (people.filter (fun p => p.thumbnailPath.isSome)).map mapPerson
  { total := persons.length
    visible := (persons.filter (fun x => !x.isHidden)).length
    people := persons.filter (fun x => withHidden == some true || !x.isHidden) }

/-- Modelled from the spec: get-by-id query (spec §4.1) — the unit test
(line 83) pins the failure class on a missing Person to Bad-Request. -/
def getById (s : Store) (authId personId : String) :
    Except ServiceError PersonResponse :=
  match s.repoGetById authId personId with
  | none => Except.error ServiceError.badRequest
  | some p => Except.ok (mapPerson p)

/-- Modelled from the spec: get-thumbnail query (spec §4.1) — NotFound if the
Person is missing or has no thumbnail path recorded; otherwise opens a byte
stream for the stored JPEG (the opened (path, content type) pair stands for
the stream). -/
def getThumbnail (s : Store) (authId personId : String) :
    OpOutcome (String × String) :=
  match s.repoGetById authId personId with
  | none =>
      ⟨Except.error ServiceError.notFound, s, [], [RepoCall.getById authId personId]⟩
  | some p =>
    match p.thumbnailPath with
    | none =>
        ⟨Except.error ServiceError.notFound, s, [], [RepoCall.getById authId personId]⟩
    | some path =>
        ⟨Except.ok (path, "image/jpeg"), s, [],
         [RepoCall.getById authId personId,
          RepoCall.createReadStream path "image/jpeg"]⟩

/-- Modelled from the spec: get-assets-for-person query (spec §4.1) — the
caller id and person id are forwarded to the Person Store unchanged and the
store's answer is returned; no existence check of its own (test lines
115-121). -/
def getAssets (s : Store) (authId personId : String) : OpOutcome (List Asset) :=
  ⟨Except.ok (s.repoGetAssets authId personId), s, [],
   [RepoCall.getAssets authId personId]⟩

/-- Modelled from the spec: single update (spec §4.2).  Bad-Request if the
Person does not exist for the caller; a feature-face selection sets the
Person's thumbnail path from the face's stored thumbnail location and
enqueues one thumbnail-generation job with the face's bounding box and
source dimensions (mutually exclusive from field changes per §4.2/§9);
otherwise the supplied fields are applied and a search re-index job over the
Person's assets is enqueued when name or visibility was supplied (not for
birth-date-only changes). -/
def update (s : Store) (authId personId : String) (dto : PersonUpdateDto) :
    OpOutcome PersonResponse :=
  match s.repoGetById authId personId with
  | none =>
      ⟨Except.error ServiceError.badRequest, s, [], [RepoCall.getById authId personId]⟩
  | some person =>
    match dto.featureFaceAssetId with
    | some assetId =>
      match s.repoGetFaceById assetId personId with
      | none =>
          ⟨Except.error ServiceError.badRequest, s, [],
           [RepoCall.getById authId personId, RepoCall.getFaceById assetId personId]⟩
      | some face =>
        let u : PersonUpdate :=
          { id := personId, name := none, birthDate := none, isHidden := none
            thumbnailPath := some face.thumbnailPath }
        ⟨Except.ok (mapPerson (person.applyUpdate u)), s.updatePersonRec u,
         [Job.generateFaceThumbnail assetId personId
            face.boundingBoxX1 face.boundingBoxX2 face.boundingBoxY1 face.boundingBoxY2
            face.imageWidth face.imageHeight],
         [RepoCall.getById authId personId, RepoCall.getFaceById assetId personId,
          RepoCall.updatePerson personId]⟩
    | none =>
      if dto.name.isSome || dto.birthDate.isSome || dto.isHidden.isSome then
        let u : PersonUpdate :=
          { id := personId, name := dto.name, birthDate := dto.birthDate
            isHidden := dto.isHidden, thumbnailPath := none }
        let s1 := s.updatePersonRec u
        if dto.name.isSome || dto.isHidden.isSome then
          ⟨Except.ok (mapPerson (person.applyUpdate u)), s1,
           [Job.searchIndexAsset ((s1.repoGetAssets authId personId).map (fun x => x.id))],
           [RepoCall.getById authId personId, RepoCall.updatePerson personId,
            RepoCall.getAssets authId personId]⟩
        else
          ⟨Except.ok (mapPerson (person.applyUpdate u)), s1, [],
           [RepoCall.getById authId personId, RepoCall.updatePerson personId]⟩
      else
        ⟨Except.ok (mapPerson person), s, [], [RepoCall.getById authId personId]⟩

/-- Modelled from the spec: bulk update loop (spec §4.3) — each item is
processed independently through `update`; a failure is captured in that
item's result slot.  The unit test (lines 211-219) pins the captured reason
to `UNKNOWN` for any error, including a person id that does not resolve. -/
def updatePeopleGo (authId : String) : Store → List PersonUpdateItem → BatchResult
  | s, [] => ⟨[], s, [], []⟩
  | s, item :: rest =>
    let r := update s authId item.id item.dto
    let entry : BulkIdResponse :=
      match r.result with
      | Except.ok _ => { id := item.id, success := true, error := none }
      | Except.error _ =>
          { id := item.id, success := false, error := some BulkIdErrorReason.unknown }
    let rr := updatePeopleGo authId r.store rest
    ⟨entry :: rr.results, rr.store, r.jobs ++ rr.jobs, r.calls ++ rr.calls⟩

/-- Modelled from the spec: bulk update entry point (spec §4.3) — one result
per input item, never a call-level failure. -/
def updatePeople (s : Store) (authId : String) (items : List PersonUpdateItem) :
    BatchResult :=
  updatePeopleGo authId s items

/-- One step of the merge protocol (spec §4.4) for a single secondary id. -/
structure MergeStep where
  entry : BulkIdResponse
  store : Store
  jobs : List Job
  calls : List RepoCall

/-- Modelled from the spec: merge protocol for one secondary id (spec §4.4
steps 1-6): missing secondary reports `NOT_FOUND` with nothing attempted;
otherwise conflicting assets are computed (one search-remove-face job each),
remaining faces reassigned, and the secondary deleted; an error raised by
the reassignment aborts after conflict detection, leaves the secondary
undeleted, and reports `UNKNOWN`. -/
def mergeOne (s : Store) (authId primaryId mergeId : String) : MergeStep :=
  match s.repoGetById authId mergeId with
  | none =>
      ⟨{ id := mergeId, success := false, error := some BulkIdErrorReason.notFound },
       s, [], [RepoCall.getById authId mergeId]⟩
  | some _ =>
    let pr := s.prepareReassign primaryId mergeId
    let conflicts := pr.1
    let s1 := pr.2
    let jobs := conflicts.map (fun aId => Job.searchRemoveFace aId mergeId)
    if s.reassignFacesOk then
      ⟨{ id := mergeId, success := true, error := none },
       (s1.applyReassign primaryId mergeId).deletePersonRec mergeId, jobs,
       [RepoCall.getById authId mergeId,
        RepoCall.prepareReassignFaces primaryId mergeId,
        RepoCall.reassignFaces primaryId mergeId,
        RepoCall.deletePerson mergeId]⟩
    else
      ⟨{ id := mergeId, success := false, error := some BulkIdErrorReason.unknown },
       s1, jobs,
       [RepoCall.getById authId mergeId,
        RepoCall.prepareReassignFaces primaryId mergeId,
        RepoCall.reassignFaces primaryId mergeId]⟩

/-- Modelled from the spec: merge loop over the secondary ids (spec §4.4),
each processed independently with its result reported per id. -/
def mergePersonGo (authId primaryId : String) : Store → List String → BatchResult
  | s, [] => ⟨[], s, [], []⟩
  | s, mergeId :: rest =>
    let one := mergeOne s authId primaryId mergeId
    let rr := mergePersonGo authId primaryId one.store rest
    ⟨one.entry :: rr.results, rr.store, one.jobs ++ rr.jobs, one.calls ++ rr.calls⟩

/-- Modelled from the spec: merge entry point (spec §4.4 step 1) — if the
primary itself cannot be resolved the whole call fails with a
Bad-Request-class error; otherwise every secondary id gets its own result
slot. -/
def mergePerson (s : Store) (authId primaryId : String) (mergeIds : List String) :
    OpOutcome (List BulkIdResponse) :=
  match s.repoGetById authId primaryId with
  | none =>
      ⟨Except.error ServiceError.badRequest, s, [], [RepoCall.getById authId primaryId]⟩
  | some _ =>
    let g := mergePersonGo authId primaryId s mergeIds
    ⟨Except.ok g.results, g.store, g.jobs, RepoCall.getById authId primaryId :: g.calls⟩

end PersonService

/-! ### Concrete fixtures (mirroring the stubs used by the unit tests) -/

/-- An empty store: no persons, faces or assets. -/
def emptyStore : Store := { persons := [], faces := [], assets := [], reassignFacesOk := true }

/-- A named, visible person with a recorded thumbnail, owned by the admin. -/
def adminPerson : Person :=
  { id := "person-1", ownerId := "admin_id", name := "Person 1", birthDate := none
    thumbnailPath := some "/path/to/thumbnail.jpg", isHidden := false }

/-- An unnamed person without a thumbnail, owned by the admin. -/
def secondaryPerson : Person :=
  { id := "person-2", ownerId := "admin_id", name := "", birthDate := none
    thumbnailPath := none, isHidden := false }

/-- A store holding just the one admin-owned person. -/
def oneStore : Store :=
  { persons := [adminPerson], faces := [], assets := [], reassignFacesOk := true }

/-- A store holding just the admin-owned person without a thumbnail. -/
def noThumbStore : Store :=
  { persons := [secondaryPerson], faces := [], assets := [], reassignFacesOk := true }

/-! ### C2 — getById failure class -/

/-- C2 counterexample: on a store with no matching Person, `getById` fails
with a Bad-Request-class error, not the NotFound-class error the claim
states. -/
theorem getById_missing_is_bad_request_counterexample :
    emptyStore.repoGetById "admin_id" "person-1" = none ∧
    PersonService.getById emptyStore "admin_id" "person-1" =
      Except.error ServiceError.badRequest ∧
    PersonService.getById emptyStore "admin_id" "person-1" ≠
      Except.error ServiceError.notFound := by
  refine ⟨rfl, rfl, ?_⟩
  intro h
  simp [PersonService.getById, Store.repoGetById, emptyStore] at h

/-- C2 (amended): for every caller and person id, `getById` fails with a
Bad-Request-class error whenever no Person with that id is owned by the
caller; when the Person exists it returns the public projection (id, name,
birth date, thumbnail path, hidden flag). -/
theorem getById_contract (s : Store) (authId personId : String) :
    (s.repoGetById authId personId = none ↔
        ∀ p ∈ s.persons, ¬(p.ownerId = authId ∧ p.id = personId)) ∧
    (s.repoGetById authId personId = none →
        PersonService.getById s authId personId = Except.error ServiceError.badRequest) ∧
    (∀ p, s.repoGetById authId personId = some p →
        PersonService.getById s authId personId = Except.ok (mapPerson p) ∧
        mapPerson p = { id := p.id, name := p.name, birthDate := p.birthDate
                        thumbnailPath := p.thumbnailPath, isHidden := p.isHidden }) := by
  refine ⟨?_, ?_, ?_⟩
  · simp [Store.repoGetById, List.find?_eq_none]
  · intro h
    simp [PersonService.getById, h]
  · intro p h
    exact ⟨by simp [PersonService.getById, h], rfl⟩

/-- C2 witness: the amended contract applied at concrete inputs. -/
theorem getById_contract_witness :
    emptyStore.repoGetById "admin_id" "person-1" = none ∧
    PersonService.getById emptyStore "admin_id" "person-1" =
      Except.error ServiceError.badRequest ∧
    oneStore.repoGetById "admin_id" "person-1" = some adminPerson ∧
    PersonService.getById oneStore "admin_id" "person-1" = Except.ok (mapPerson adminPerson) := by
  refine ⟨rfl, ?_, rfl, ?_⟩
  · exact (getById_contract emptyStore "admin_id" "person-1").2.1 rfl
  · exact ((getById_contract oneStore "admin_id" "person-1").2.2 adminPerson rfl).1

/-! ### C9 — getThumbnail -/

/-- C9: `getThumbnail` fails with a NotFound-class error when the Person does
not exist for the caller or has no thumbnail path, and the blob reader is
never invoked in those cases; when the Person exists with a thumbnail path,
it opens a byte stream for that path as a JPEG. -/
theorem getThumbnail_contract (s : Store) (authId personId : String) :
    (s.repoGetById authId personId = none →
        (PersonService.getThumbnail s authId personId).result =
          Except.error ServiceError.notFound ∧
        ∀ path ct, RepoCall.createReadStream path ct ∉
          (PersonService.getThumbnail s authId personId).calls) ∧
    (∀ p, s.repoGetById authId personId = some p → p.thumbnailPath = none →
        (PersonService.getThumbnail s authId personId).result =
          Except.error ServiceError.notFound ∧
        ∀ path ct, RepoCall.createReadStream path ct ∉
          (PersonService.getThumbnail s authId personId).calls) ∧
    (∀ p path, s.repoGetById authId personId = some p → p.thumbnailPath = some path →
        (PersonService.getThumbnail s authId personId).result =
          Except.ok (path, "image/jpeg") ∧
        (PersonService.getThumbnail s authId personId).calls =
          [RepoCall.getById authId personId,
           RepoCall.createReadStream path "image/jpeg"]) := by
  refine ⟨?_, ?_, ?_⟩
  · intro h
    refine ⟨?_, ?_⟩
    · simp [PersonService.getThumbnail, h]
    · intro path ct
      simp [PersonService.getThumbnail, h]
  · intro p hp ht
    refine ⟨?_, ?_⟩
    · simp [PersonService.getThumbnail, hp, ht]
    · intro path ct
      simp [PersonService.getThumbnail, hp, ht]
  · intro p path hp ht
    refine ⟨?_, ?_⟩
    · simp [PersonService.getThumbnail, hp, ht]
    · simp [PersonService.getThumbnail, hp, ht]

/-- C9 witness: the contract applied at concrete inputs (missing person,
person without thumbnail, person with thumbnail). -/
theorem getThumbnail_contract_witness :
    (PersonService.getThumbnail emptyStore "admin_id" "person-1").result =
      Except.error ServiceError.notFound ∧
    (PersonService.getThumbnail noThumbStore "admin_id" "person-2").result =
      Except.error ServiceError.notFound ∧
    RepoCall.createReadStream "/path/to/thumbnail.jpg" "image/jpeg" ∉
      (PersonService.getThumbnail noThumbStore "admin_id" "person-2").calls ∧
    (PersonService.getThumbnail oneStore "admin_id" "person-1").result =
      Except.ok ("/path/to/thumbnail.jpg", "image/jpeg") := by
  refine ⟨?_, ?_, ?_, ?_⟩
  · exact ((getThumbnail_contract emptyStore "admin_id" "person-1").1 rfl).1
  · exact ((getThumbnail_contract noThumbStore "admin_id" "person-2").2.1
      secondaryPerson rfl rfl).1
  · exact ((getThumbnail_contract noThumbStore "admin_id" "person-2").2.1
      secondaryPerson rfl rfl).2 "/path/to/thumbnail.jpg" "image/jpeg"
  · exact ((getThumbnail_contract oneStore "admin_id" "person-1").2.2
      adminPerson "/path/to/thumbnail.jpg" rfl rfl).1

/-! ### C10 — getAssets forwards without existence check -/

/-- C10: `getAssets` performs no existence check: for every caller and every
person id it forwards both ids unchanged to the Person Store's `getAssets`,
returns the store's answer, changes nothing, enqueues nothing, and never
fails with an error of its own. -/
theorem getAssets_forwards (s : Store) (authId personId : String) :
    (PersonService.getAssets s authId personId).result =
      Except.ok (s.repoGetAssets authId personId) ∧
    (PersonService.getAssets s authId personId).calls =
      [RepoCall.getAssets authId personId] ∧
    (PersonService.getAssets s authId personId).store = s ∧
    (PersonService.getAssets s authId personId).jobs = [] :=
  ⟨rfl, rfl, rfl, rfl⟩

/-! ### C1 — bulk update batch semantics -/

/-- A bulk-update item naming a person that does not exist. -/
def missingUpdateItem : PersonUpdateItem :=
  { id := "person-1"
    dto := { name := some "Person 1", birthDate := none, isHidden := none
             featureFaceAssetId := none } }

/-- C1 counterexample: over a store where the item's person id does not
resolve, the bulk update reports that item's failure with reason `UNKNOWN`,
not the `NOT_FOUND` the claim states (unit test lines 211-219). -/
theorem updatePeople_missing_reports_unknown_counterexample :
    emptyStore.repoGetById "admin_id" "person-1" = none ∧
    (PersonService.updatePeople emptyStore "admin_id" [missingUpdateItem]).results =
      [{ id := "person-1", success := false, error := some BulkIdErrorReason.unknown }] ∧
    some BulkIdErrorReason.unknown ≠ some BulkIdErrorReason.notFound := by
  refine ⟨rfl, rfl, by decide⟩

/-- C1 (amended): a bulk update over N items returns exactly N per-item
results; an item whose person id does not resolve at read time yields a
failure with reason `UNKNOWN` (the not-found condition surfaces as the
per-item update's Bad-Request error and is downgraded), no store update
write is attempted for it (its only collaborator call is the read), and its
failure neither alters the store seen by the remaining items nor any other
item's result. -/
theorem updatePeople_batch_contract (s : Store) (authId : String)
    (item : PersonUpdateItem) (rest : List PersonUpdateItem)
    (hmiss : s.repoGetById authId item.id = none) :
    (PersonService.updatePeople s authId (item :: rest)).results =
      { id := item.id, success := false, error := some BulkIdErrorReason.unknown } ::
        (PersonService.updatePeople s authId rest).results ∧
    (PersonService.updatePeople s authId (item :: rest)).store =
      (PersonService.updatePeople s authId rest).store ∧
    (PersonService.updatePeople s authId (item :: rest)).jobs =
      (PersonService.updatePeople s authId rest).jobs ∧
    (PersonService.updatePeople s authId (item :: rest)).calls =
      RepoCall.getById authId item.id :: (PersonService.updatePeople s authId rest).calls ∧
    (∀ items : List PersonUpdateItem,
      (PersonService.updatePeople s authId items).results.length = items.length) := by
  have hlen : ∀ (items : List PersonUpdateItem) (st : Store),
      (PersonService.updatePeopleGo authId st items).results.length = items.length := by
    intro items
    induction items with
    | nil => intro st; rfl
    | cons a l ih =>
      intro st
      simp [PersonService.updatePeopleGo, ih]
  refine ⟨?_, ?_, ?_, ?_, fun items => hlen items s⟩ <;>
    simp [PersonService.updatePeople, PersonService.updatePeopleGo,
      PersonService.update, hmiss]

/-- C1 witness: the amended batch contract applied at a concrete input. -/
theorem updatePeople_batch_contract_witness :
    emptyStore.repoGetById "admin_id" "person-1" = none ∧
    (PersonService.updatePeople emptyStore "admin_id" [missingUpdateItem]).results =
      { id := "person-1", success := false, error := some BulkIdErrorReason.unknown } ::
        (PersonService.updatePeople emptyStore "admin_id" []).results :=
  ⟨rfl, (updatePeople_batch_contract emptyStore "admin_id" missingUpdateItem [] rfl).1⟩

/-! ### C7 — search re-index job on name/visibility change -/

/-- C7: a single update supplying a name or hidden-flag change (and no
feature-face selection) enqueues exactly one search re-index job carrying
the ids of every Asset associated with the Person; a birth-date-only update
enqueues no job at all. -/
theorem update_reindex_job_contract (s : Store) (authId personId : String)
    (dto : PersonUpdateDto) (person : Person)
    (hp : s.repoGetById authId personId = some person)
    (hff : dto.featureFaceAssetId = none) :
    ((dto.name ≠ none ∨ dto.isHidden ≠ none) →
      (PersonService.update s authId personId dto).jobs =
        [Job.searchIndexAsset ((s.repoGetAssets authId personId).map (fun x => x.id))]) ∧
    (dto.name = none → dto.isHidden = none →
      (PersonService.update s authId personId dto).jobs = []) := by
  constructor
  · intro h
    have hsup : (dto.name.isSome || dto.birthDate.isSome || dto.isHidden.isSome) = true := by
      cases h with
      | inl h => simp [Option.ne_none_iff_isSome.mp h]
      | inr h => simp [Option.ne_none_iff_isSome.mp h]
    have hsup2 : (dto.name.isSome || dto.isHidden.isSome) = true := by
      cases h with
      | inl h => simp [Option.ne_none_iff_isSome.mp h]
      | inr h => simp [Option.ne_none_iff_isSome.mp h]
    simp [PersonService.update, hp, hff, hsup, hsup2,
      Store.updatePersonRec, Store.repoGetAssets]
  · intro hn hh
    cases hbd : dto.birthDate with
    | none => simp [PersonService.update, hp, hff, hn, hh, hbd]
    | some d => simp [PersonService.update, hp, hff, hn, hh, hbd]

/-- A face of the admin-owned person on asset `asset-1`, with its stored
thumbnail location and geometry. -/
def adminFace : AssetFace :=
  { assetId := "asset-1", personId := "person-1", thumbnailPath := "/face/thumbnail.jpg"
    boundingBoxX1 := 100, boundingBoxY1 := 100, boundingBoxX2 := 200, boundingBoxY2 := 200
    imageWidth := 500, imageHeight := 400 }

/-- The admin-owned image asset. -/
def imageAsset : Asset := { id := "asset-1", ownerId := "admin_id" }

/-- A store where the admin person has one face on the one image asset. -/
def linkedStore : Store :=
  { persons := [adminPerson], faces := [adminFace], assets := [imageAsset]
    reassignFacesOk := true }

/-- An update supplying only a name. -/
def nameDto : PersonUpdateDto :=
  { name := some "Person 1", birthDate := none, isHidden := none, featureFaceAssetId := none }

/-- An update supplying only a birth date. -/
def birthDateDto : PersonUpdateDto :=
  { name := none, birthDate := some "1976-06-30", isHidden := none, featureFaceAssetId := none }

/-- C7 witness: the re-index contract applied at a concrete store — a name
update emits the one re-index job over the person's asset, a
birth-date-only update emits nothing. -/
theorem update_reindex_job_contract_witness :
    (PersonService.update linkedStore "admin_id" "person-1" nameDto).jobs =
      [Job.searchIndexAsset ["asset-1"]] ∧
    (PersonService.update linkedStore "admin_id" "person-1" birthDateDto).jobs = [] := by
  constructor
  · exact (update_reindex_job_contract linkedStore "admin_id" "person-1" nameDto
      adminPerson rfl rfl).1 (Or.inl (by decide))
  · exact (update_reindex_job_contract linkedStore "admin_id" "person-1" birthDateDto
      adminPerson rfl rfl).2 rfl rfl

/-! ### C6 — feature-face selection -/

/-- C6: a single update carrying a feature-face selection whose Face exists
for (asset id, person id) sets the Person's thumbnail path from that Face's
stored thumbnail location and enqueues exactly one thumbnail-generation job
carrying the Face's bounding box coordinates and its stored source-image
width and height. -/
theorem update_feature_face_contract (s : Store) (authId personId assetId : String)
    (dto : PersonUpdateDto) (person : Person) (face : AssetFace)
    (hp : s.repoGetById authId personId = some person)
    (hff : dto.featureFaceAssetId = some assetId)
    (hface : s.repoGetFaceById assetId personId = some face) :
    (PersonService.update s authId personId dto).jobs =
      [Job.generateFaceThumbnail assetId personId
        face.boundingBoxX1 face.boundingBoxX2 face.boundingBoxY1 face.boundingBoxY2
        face.imageWidth face.imageHeight] ∧
    (∀ q ∈ (PersonService.update s authId personId dto).store.persons,
        q.id = personId → q.thumbnailPath = some face.thumbnailPath) ∧
    (PersonService.update s authId personId dto).result =
      Except.ok (mapPerson (person.applyUpdate
        { id := personId, name := none, birthDate := none, isHidden := none
          thumbnailPath := some face.thumbnailPath })) ∧
    (mapPerson (person.applyUpdate
        { id := personId, name := none, birthDate := none, isHidden := none
          thumbnailPath := some face.thumbnailPath })).thumbnailPath =
      some face.thumbnailPath := by
  refine ⟨?_, ?_, ?_, ?_⟩
  · simp [PersonService.update, hp, hff, hface]
  · intro q hq hid
    simp only [PersonService.update, hp, hff, hface, Store.updatePersonRec] at hq
    rcases List.mem_map.mp hq with ⟨q0, _, rfl⟩
    by_cases h0 : q0.id = personId
    · simp [h0, Person.applyUpdate, Option.or]
    · simp [h0] at hid
  · simp [PersonService.update, hp, hff, hface]
  · simp [mapPerson, Person.applyUpdate, Option.or]

/-- An update carrying only the feature-face selection for asset `asset-1`. -/
def featureFaceDto : PersonUpdateDto :=
  { name := none, birthDate := none, isHidden := none, featureFaceAssetId := some "asset-1" }

/-- C6 witness: the feature-face contract applied at a concrete store. -/
theorem update_feature_face_contract_witness :
    (PersonService.update linkedStore "admin_id" "person-1" featureFaceDto).jobs =
      [Job.generateFaceThumbnail "asset-1" "person-1" 100 200 100 200 500 400] ∧
    (PersonService.update linkedStore "admin_id" "person-1" featureFaceDto).result =
      Except.ok { id := "person-1", name := "Person 1", birthDate := none
                  thumbnailPath := some "/face/thumbnail.jpg", isHidden := false } := by
  have h := update_feature_face_contract linkedStore "admin_id" "person-1" "asset-1"
    featureFaceDto adminPerson adminFace rfl rfl rfl
  exact ⟨h.1, h.2.2.1⟩

/-! ### C4 — reassignment error during merge -/

/-- C4: when the face-reassignment store call raises an error during a merge
item, that item's result reports failure with reason `UNKNOWN`, the
secondary Person is not deleted (no `delete` call is made and the stored
person records are untouched), and the error does not propagate as a
call-level failure of `mergePerson`. -/
theorem mergePerson_reassign_error_contract (s : Store)
    (authId primaryId mergeId : String) (P S : Person)
    (hP : s.repoGetById authId primaryId = some P)
    (hS : s.repoGetById authId mergeId = some S)
    (hfail : s.reassignFacesOk = false) :
    (PersonService.mergePerson s authId primaryId [mergeId]).result =
      Except.ok [{ id := mergeId, success := false
                   error := some BulkIdErrorReason.unknown }] ∧
    RepoCall.deletePerson mergeId ∉
      (PersonService.mergePerson s authId primaryId [mergeId]).calls ∧
    (PersonService.mergePerson s authId primaryId [mergeId]).store.persons = s.persons := by
  refine ⟨?_, ?_, ?_⟩ <;>
    simp [PersonService.mergePerson, PersonService.mergePersonGo, PersonService.mergeOne,
      hP, hS, hfail, Store.prepareReassign]

/-- The unnamed secondary person's face, also on asset `asset-1` (a conflict
with the admin person's face). -/
def secondaryFaceConflict : AssetFace :=
  { assetId := "asset-1", personId := "person-2", thumbnailPath := "/face/thumbnail2.jpg"
    boundingBoxX1 := 10, boundingBoxY1 := 10, boundingBoxX2 := 20, boundingBoxY2 := 20
    imageWidth := 500, imageHeight := 400 }

/-- The secondary person's face on asset `asset-2` (no conflict). -/
def secondaryFacePlain : AssetFace :=
  { assetId := "asset-2", personId := "person-2", thumbnailPath := "/face/thumbnail3.jpg"
    boundingBoxX1 := 30, boundingBoxY1 := 30, boundingBoxX2 := 40, boundingBoxY2 := 40
    imageWidth := 600, imageHeight := 300 }

/-- A two-person store whose reassignment primitive fails. -/
def mergeFailStore : Store :=
  { persons := [adminPerson, secondaryPerson]
    faces := [adminFace, secondaryFaceConflict, secondaryFacePlain]
    assets := [imageAsset], reassignFacesOk := false }

/-- C4 witness: the reassignment-error contract applied at a concrete store. -/
theorem mergePerson_reassign_error_contract_witness :
    (PersonService.mergePerson mergeFailStore "admin_id" "person-1" ["person-2"]).result =
      Except.ok [{ id := "person-2", success := false
                   error := some BulkIdErrorReason.unknown }] ∧
    (PersonService.mergePerson mergeFailStore "admin_id" "person-1" ["person-2"]).store.persons =
      mergeFailStore.persons := by
  have h := mergePerson_reassign_error_contract mergeFailStore "admin_id" "person-1" "person-2"
    adminPerson secondaryPerson rfl rfl rfl
  exact ⟨h.1, h.2.2⟩

/-! ### C5 — id resolution in mergePerson -/

/-- C5: if the primary person id cannot be resolved for the caller, the
whole merge call fails with a Bad-Request-class error, the store is
untouched and only the primary read was attempted; when the primary
resolves, the call succeeds with one result slot per secondary id, and a
secondary id that does not resolve at its turn (including an id already
deleted by a prior merge, since the property holds over every intermediate
store) yields `NOT_FOUND` in its slot — never `UNKNOWN` — while
contributing only its read call: no conflict detection, no face
reassignment, no deletion. -/
theorem mergePerson_resolution_contract (s : Store) (authId primaryId : String) :
    (∀ mergeIds : List String, s.repoGetById authId primaryId = none →
        (PersonService.mergePerson s authId primaryId mergeIds).result =
          Except.error ServiceError.badRequest ∧
        (PersonService.mergePerson s authId primaryId mergeIds).store = s ∧
        (PersonService.mergePerson s authId primaryId mergeIds).calls =
          [RepoCall.getById authId primaryId]) ∧
    (∀ (P : Person) (mergeIds : List String),
        s.repoGetById authId primaryId = some P →
        (PersonService.mergePerson s authId primaryId mergeIds).result =
          Except.ok (PersonService.mergePersonGo authId primaryId s mergeIds).results) ∧
    (∀ (mergeId : String) (rest : List String),
        s.repoGetById authId mergeId = none →
        (PersonService.mergePersonGo authId primaryId s (mergeId :: rest)).results =
          { id := mergeId, success := false, error := some BulkIdErrorReason.notFound } ::
            (PersonService.mergePersonGo authId primaryId s rest).results ∧
        (PersonService.mergePersonGo authId primaryId s (mergeId :: rest)).store =
          (PersonService.mergePersonGo authId primaryId s rest).store ∧
        (PersonService.mergePersonGo authId primaryId s (mergeId :: rest)).jobs =
          (PersonService.mergePersonGo authId primaryId s rest).jobs ∧
        (PersonService.mergePersonGo authId primaryId s (mergeId :: rest)).calls =
          RepoCall.getById authId mergeId ::
            (PersonService.mergePersonGo authId primaryId s rest).calls) := by
  refine ⟨?_, ?_, ?_⟩
  · intro mergeIds h
    refine ⟨?_, ?_, ?_⟩ <;> simp [PersonService.mergePerson, h]
  · intro P mergeIds hP
    simp [PersonService.mergePerson, hP]
  · intro mergeId rest h
    refine ⟨?_, ?_, ?_, ?_⟩ <;>
      simp [PersonService.mergePersonGo, PersonService.mergeOne, h]

/-- C5 witness: the resolution contract applied at concrete stores — a
missing primary fails the whole call with Bad-Request; a missing secondary
yields a `NOT_FOUND` result slot in a successful call. -/
theorem mergePerson_resolution_contract_witness :
    (PersonService.mergePerson emptyStore "admin_id" "person-1" ["person-2"]).result =
      Except.error ServiceError.badRequest ∧
    (PersonService.mergePerson oneStore "admin_id" "person-1" ["person-2"]).result =
      Except.ok [{ id := "person-2", success := false
                   error := some BulkIdErrorReason.notFound }] := by
  constructor
  · exact ((mergePerson_resolution_contract emptyStore "admin_id" "person-1").1
      ["person-2"] rfl).1
  · have h2 := (mergePerson_resolution_contract oneStore "admin_id" "person-1").2.1
      adminPerson ["person-2"] rfl
    have h3 := ((mergePerson_resolution_contract oneStore "admin_id" "person-1").2.2
      "person-2" [] rfl).1
    rw [h2, h3]
    rfl

/-! ### C8 — list-people query -/

/-- The public projection keeps the hidden flag. -/
@[simp] lemma mapPerson_isHidden (p : Person) : (mapPerson p).isHidden = p.isHidden := rfl

/-- The public projection keeps the name string. -/
@[simp] lemma mapPerson_name (p : Person) : (mapPerson p).name = p.name := rfl

/-- The store's `getAll` answer splits into a non-hidden block followed by a
hidden block (named/visible persons first, hidden persons last). -/
lemma repoGetAll_split (s : Store) (ownerId : String) (m : Nat) :
    ∃ A B : List Person, s.repoGetAll ownerId m = A ++ B ∧
      (∀ p ∈ A, p.isHidden = false) ∧ (∀ p ∈ B, p.isHidden = true) := by
  refine ⟨(s.persons.filter (fun p => p.ownerId == ownerId &&
        decide (m ≤ s.faceCountOf p.id))).filter (fun p => !p.isHidden && p.name != "") ++
      (s.persons.filter (fun p => p.ownerId == ownerId &&
        decide (m ≤ s.faceCountOf p.id))).filter (fun p => !p.isHidden && p.name == ""),
      (s.persons.filter (fun p => p.ownerId == ownerId &&
        decide (m ≤ s.faceCountOf p.id))).filter (fun p => p.isHidden), ?_, ?_, ?_⟩
  · simp [Store.repoGetAll, List.append_assoc]
  · intro p hp
    rcases List.mem_append.mp hp with h | h
    · have := (List.mem_filter.mp h).2
      simp only [Bool.and_eq_true, Bool.not_eq_true'] at this
      exact this.1
    · have := (List.mem_filter.mp h).2
      simp only [Bool.and_eq_true, Bool.not_eq_true'] at this
      exact this.1
  · intro p hp
    exact (List.mem_filter.mp hp).2

/-- C8: with `withHidden` false or omitted, the listed people contain no
hidden Person; with `withHidden` true the list contains every qualifying
Person (owned, enough faces, thumbnail recorded), hidden ones ordered after
the named/visible ones; in all cases `total` counts the qualifying Persons
and `visible` those of them not hidden; and an empty name is rendered as the
empty string. -/
theorem getAll_contract (s : Store) (authId : String) (withHidden : Option Bool) :
    ((withHidden = none ∨ withHidden = some false) →
        ∀ x ∈ (PersonService.getAll s authId withHidden).people, x.isHidden = false) ∧
    (withHidden = some true →
        (∀ p ∈ (s.repoGetAll authId 1).filter (fun p => p.thumbnailPath.isSome),
            mapPerson p ∈ (PersonService.getAll s authId withHidden).people) ∧
        ∃ v h, (PersonService.getAll s authId withHidden).people = v ++ h ∧
            (∀ x ∈ v, x.isHidden = false) ∧ (∀ x ∈ h, x.isHidden = true)) ∧
    (PersonService.getAll s authId withHidden).total =
      ((s.repoGetAll authId 1).filter (fun p => p.thumbnailPath.isSome)).length ∧
    (PersonService.getAll s authId withHidden).visible =
      (((s.repoGetAll authId 1).filter (fun p => p.thumbnailPath.isSome)).filter
        (fun p => !p.isHidden)).length ∧
    (∀ p : Person, p.name = "" → (mapPerson p).name = "") := by
  refine ⟨?_, ?_, ?_, ?_, ?_⟩
  · intro h x hx
    rcases h with rfl | rfl <;>
    · simp only [PersonService.getAll, List.mem_filter] at hx
      simpa using hx.2
  · intro hw
    subst hw
    constructor
    · intro p hp
      simp only [PersonService.getAll]
      simp only [beq_self_eq_true, Bool.true_or, List.filter_true]
      exact List.mem_map_of_mem mapPerson hp
    · obtain ⟨A, B, hAB, hA, hB⟩ := repoGetAll_split s authId 1
      refine ⟨(A.filter (fun p => p.thumbnailPath.isSome)).map mapPerson,
              (B.filter (fun p => p.thumbnailPath.isSome)).map mapPerson, ?_, ?_, ?_⟩
      · simp [PersonService.getAll, hAB, List.filter_append]
      · intro x hx
        rcases List.mem_map.mp hx with ⟨p, hp, rfl⟩
        simpa using hA p (List.mem_of_mem_filter hp)
      · intro x hx
        rcases List.mem_map.mp hx with ⟨p, hp, rfl⟩
        simpa using hB p (List.mem_of_mem_filter hp)
  · simp [PersonService.getAll]
  · simp only [PersonService.getAll]
    rw [List.filter_map]
    simp [Function.comp]
  · intro p h
    simp [h]

/-- A hidden, unnamed person with a recorded thumbnail. -/
def hiddenPerson : Person :=
  { id := "person-3", ownerId := "admin_id", name := "", birthDate := none
    thumbnailPath := some "/path/to/thumbnail.jpg", isHidden := true }

/-- The hidden person's face on asset `asset-2`. -/
def hiddenFace : AssetFace :=
  { assetId := "asset-2", personId := "person-3", thumbnailPath := "/face/thumbnail4.jpg"
    boundingBoxX1 := 1, boundingBoxY1 := 1, boundingBoxX2 := 2, boundingBoxY2 := 2
    imageWidth := 100, imageHeight := 100 }

/-- A store with one visible named person and one hidden person, each with a
face and a thumbnail. -/
def getAllStore : Store :=
  { persons := [adminPerson, hiddenPerson], faces := [adminFace, hiddenFace]
    assets := [imageAsset], reassignFacesOk := true }

/-- C8 witness: the list-people contract applied at a concrete store. -/
theorem getAll_contract_witness :
    (mapPerson adminPerson).isHidden = false ∧
    mapPerson adminPerson ∈ (PersonService.getAll getAllStore "admin_id" (some true)).people ∧
    (PersonService.getAll getAllStore "admin_id" (some true)).total = 2 ∧
    (PersonService.getAll getAllStore "admin_id" (some true)).visible = 1 := by
  have h := getAll_contract getAllStore "admin_id" (some true)
  have h0 := getAll_contract getAllStore "admin_id" (some false)
  refine ⟨?_, ?_, h.2.2.1.trans (by decide), h.2.2.2.1.trans (by decide)⟩
  · exact h0.1 (Or.inr rfl) (mapPerson adminPerson) (by decide)
  · exact (h.2.1 rfl).1 adminPerson (by decide)

/-! ### C3 — merge face transfer -/

/-- A per-asset face-count bound over the assets that actually carry faces
extends to all asset ids (an asset with no face at all has count zero). -/
lemma facesOfOn_le_one (s : Store) (pid : String)
    (h : ∀ a ∈ s.faces.map (fun f => f.assetId), s.facesOfOn pid a ≤ 1) :
    ∀ a, s.facesOfOn pid a ≤ 1 := by
  intro a
  cases h0 : s.facesOfOn pid a with
  | zero => simp
  | succ n =>
    have hpos : 0 < s.facesOfOn pid a := by omega
    rcases List.countP_pos_iff.mp hpos with ⟨f, hf, hpred⟩
    simp only [Bool.and_eq_true, beq_iff_eq] at hpred
    have ha : a ∈ s.faces.map (fun f => f.assetId) :=
      List.mem_map.mpr ⟨f, hf, hpred.2⟩
    have h1 := h a ha
    omega

/-- C3: a successful merge of secondary `mergeId` into primary `primaryId`
(both resolving, on a store where no person has two Faces on one asset)
reassigns every remaining Face of the secondary to the primary, deletes the
secondary Person, emits exactly one search-remove-face job `(assetId,
mergeId)` per conflicting asset (an asset where both already have a Face —
the conflict list is duplicate-free and characterizes exactly those assets,
so no asset overlap means no jobs), leaves no Face on the secondary, and
leaves the primary with at most one Face per asset. -/
theorem mergePerson_merge_contract (s : Store) (authId primaryId mergeId : String)
    (P S : Person)
    (hP : s.repoGetById authId primaryId = some P)
    (hS : s.repoGetById authId mergeId = some S)
    (hne : primaryId ≠ mergeId)
    (hok : s.reassignFacesOk = true)
    (hinvP : ∀ a ∈ s.faces.map (fun f => f.assetId), s.facesOfOn primaryId a ≤ 1)
    (hinvS : ∀ a ∈ s.faces.map (fun f => f.assetId), s.facesOfOn mergeId a ≤ 1) :
    (PersonService.mergePerson s authId primaryId [mergeId]).result =
      Except.ok [{ id := mergeId, success := true, error := none }] ∧
    (∀ p ∈ (PersonService.mergePerson s authId primaryId [mergeId]).store.persons,
        p.id ≠ mergeId) ∧
    (PersonService.mergePerson s authId primaryId [mergeId]).jobs =
      (s.conflictAssetIds primaryId mergeId).map (fun a => Job.searchRemoveFace a mergeId) ∧
    (s.conflictAssetIds primaryId mergeId).Nodup ∧
    (∀ a, a ∈ s.conflictAssetIds primaryId mergeId ↔
        (0 < s.facesOfOn primaryId a ∧ 0 < s.facesOfOn mergeId a)) ∧
    ((∀ a, ¬(0 < s.facesOfOn primaryId a ∧ 0 < s.facesOfOn mergeId a)) →
        (PersonService.mergePerson s authId primaryId [mergeId]).jobs = []) ∧
    (∀ f ∈ (PersonService.mergePerson s authId primaryId [mergeId]).store.faces,
        f.personId ≠ mergeId) ∧
    (∀ f ∈ s.faces, f.personId = mergeId →
        f.assetId ∉ s.conflictAssetIds primaryId mergeId →
        { f with personId := primaryId } ∈
          (PersonService.mergePerson s authId primaryId [mergeId]).store.faces) ∧
    (∀ a, (PersonService.mergePerson s authId primaryId [mergeId]).store.facesOfOn
        primaryId a ≤ 1) := by
  have hstore : (PersonService.mergePerson s authId primaryId [mergeId]).store =
      (((s.prepareReassign primaryId mergeId).2.applyReassign primaryId
          mergeId).deletePersonRec mergeId) := by
    simp [PersonService.mergePerson, PersonService.mergePersonGo, PersonService.mergeOne,
      hP, hS, hok]
  have hfaces : (PersonService.mergePerson s authId primaryId [mergeId]).store.faces =
      (s.faces.filter (fun f => !(f.personId == mergeId &&
          decide (f.assetId ∈ s.conflictAssetIds primaryId mergeId)))).map
        (fun f => if f.personId == mergeId then { f with personId := primaryId } else f) := by
    rw [hstore]
    rfl
  have hpersons : (PersonService.mergePerson s authId primaryId [mergeId]).store.persons =
      s.persons.filter (fun p => p.id != mergeId) := by
    rw [hstore]
    rfl
  have hjobs : (PersonService.mergePerson s authId primaryId [mergeId]).jobs =
      (s.conflictAssetIds primaryId mergeId).map (fun a => Job.searchRemoveFace a mergeId) := by
    simp [PersonService.mergePerson, PersonService.mergePersonGo, PersonService.mergeOne,
      hP, hS, hok, Store.prepareReassign]
  have hres : (PersonService.mergePerson s authId primaryId [mergeId]).result =
      Except.ok [{ id := mergeId, success := true, error := none }] := by
    simp [PersonService.mergePerson, PersonService.mergePersonGo, PersonService.mergeOne,
      hP, hS, hok]
  have hconf : ∀ a, a ∈ s.conflictAssetIds primaryId mergeId ↔
      (0 < s.facesOfOn primaryId a ∧ 0 < s.facesOfOn mergeId a) := by
    intro a
    simp only [Store.conflictAssetIds, Store.facesOfOn, List.mem_dedup, List.mem_filter,
      List.mem_map, List.any_eq_true, List.countP_pos_iff, Bool.and_eq_true, beq_iff_eq]
    constructor
    · rintro ⟨⟨f, ⟨hf, hfS⟩, rfl⟩, g, hg, hgP, hga⟩
      exact ⟨⟨g, hg, hgP, hga⟩, ⟨f, hf, hfS, rfl⟩⟩
    · rintro ⟨⟨g, hg, hgP, hga⟩, ⟨f, hf, hfS, hfa⟩⟩
      exact ⟨⟨f, ⟨hf, hfS⟩, hfa⟩, g, hg, hgP, hga⟩
  have hnd : (s.conflictAssetIds primaryId mergeId).Nodup := by
    simp only [Store.conflictAssetIds]
    exact List.nodup_dedup _
  have hdel : ∀ p ∈ (PersonService.mergePerson s authId primaryId [mergeId]).store.persons,
      p.id ≠ mergeId := by
    intro p hp
    rw [hpersons] at hp
    have h2 := (List.mem_filter.mp hp).2
    simpa using h2
  have hnojobs : (∀ a, ¬(0 < s.facesOfOn primaryId a ∧ 0 < s.facesOfOn mergeId a)) →
      (PersonService.mergePerson s authId primaryId [mergeId]).jobs = [] := by
    intro h
    rw [hjobs]
    have hnil : s.conflictAssetIds primaryId mergeId = [] := by
      rw [List.eq_nil_iff_forall_not_mem]
      intro a ha
      exact h a ((hconf a).mp ha)
    rw [hnil]
    rfl
  have hnoS : ∀ f ∈ (PersonService.mergePerson s authId primaryId [mergeId]).store.faces,
      f.personId ≠ mergeId := by
    intro f hf
    rw [hfaces] at hf
    rcases List.mem_map.mp hf with ⟨g, _, rfl⟩
    by_cases h0 : g.personId = mergeId
    · simp [h0]
      exact hne
    · simp [h0]
  have hreassigned : ∀ f ∈ s.faces, f.personId = mergeId →
      f.assetId ∉ s.conflictAssetIds primaryId mergeId →
      { f with personId := primaryId } ∈
        (PersonService.mergePerson s authId primaryId [mergeId]).store.faces := by
    intro f hf hpid hnin
    rw [hfaces]
    apply List.mem_map.mpr
    refine ⟨f, ?_, ?_⟩
    · apply List.mem_filter.mpr
      refine ⟨hf, ?_⟩
      simp [hpid, hnin]
    · simp [hpid]
  have hP1 : ∀ a, s.facesOfOn primaryId a ≤ 1 := facesOfOn_le_one s primaryId hinvP
  have hS1 : ∀ a, s.facesOfOn mergeId a ≤ 1 := facesOfOn_le_one s mergeId hinvS
  have hcount : ∀ a,
      (PersonService.mergePerson s authId primaryId [mergeId]).store.facesOfOn
        primaryId a ≤ 1 := by
    intro a
    have hc : (PersonService.mergePerson s authId primaryId [mergeId]).store.facesOfOn
        primaryId a =
        s.faces.countP (fun f =>
          (((if f.personId == mergeId then { f with personId := primaryId } else f).personId ==
              primaryId) &&
           ((if f.personId == mergeId then { f with personId := primaryId } else f).assetId ==
              a)) &&
          !(f.personId == mergeId &&
            decide (f.assetId ∈ s.conflictAssetIds primaryId mergeId))) := by
      simp only [Store.facesOfOn]
      rw [hfaces, List.countP_map, List.countP_filter]
      rfl
    rw [hc]
    by_cases hac : a ∈ s.conflictAssetIds primaryId mergeId
    · refine le_trans (List.countP_mono_left ?_) (hP1 a)
      intro f hf hcomb
      by_cases hm : f.personId = mergeId
      · exfalso
        simp [hm] at hcomb
        rcases hcomb with ⟨h1, h2⟩
        rw [h1] at h2
        exact h2 hac
      · simp [hm] at hcomb
        simp [hcomb.1, hcomb.2]
    · have hnboth : ¬(0 < s.facesOfOn primaryId a ∧ 0 < s.facesOfOn mergeId a) :=
        fun hcontra => hac ((hconf a).mpr hcontra)
      by_cases hSpos : 0 < s.facesOfOn mergeId a
      · have hP0 : s.facesOfOn primaryId a = 0 := by
          by_contra h0
          exact hnboth ⟨Nat.pos_of_ne_zero h0, hSpos⟩
        refine le_trans (List.countP_mono_left ?_) (hS1 a)
        intro f hf hcomb
        by_cases hm : f.personId = mergeId
        · simp [hm] at hcomb
          simp [hm, hcomb.1]
        · exfalso
          simp [hm] at hcomb
          have hpos : 0 < s.facesOfOn primaryId a :=
            List.countP_pos_iff.mpr ⟨f, hf, by simp [hcomb.1, hcomb.2]⟩
          omega
      · have hS0 : s.facesOfOn mergeId a = 0 := Nat.eq_zero_of_not_pos hSpos
        refine le_trans (List.countP_mono_left ?_) (hP1 a)
        intro f hf hcomb
        by_cases hm : f.personId = mergeId
        · exfalso
          simp [hm] at hcomb
          have hpos : 0 < s.facesOfOn mergeId a :=
            List.countP_pos_iff.mpr ⟨f, hf, by simp [hm, hcomb.1]⟩
          omega
        · simp [hm] at hcomb
          simp [hcomb.1, hcomb.2]
  exact ⟨hres, hdel, hjobs, hnd, hconf, hnojobs, hnoS, hreassigned, hcount⟩

/-- A two-person store where the primary and the secondary share asset
`asset-1` (a conflict) and the secondary also has a face on `asset-2`. -/
def mergeStore : Store :=
  { persons := [adminPerson, secondaryPerson]
    faces := [adminFace, secondaryFaceConflict, secondaryFacePlain]
    assets := [imageAsset], reassignFacesOk := true }

/-- C3 witness: the merge contract applied at a concrete store with one
conflicting asset. -/
theorem mergePerson_merge_contract_witness :
    (PersonService.mergePerson mergeStore "admin_id" "person-1" ["person-2"]).result =
      Except.ok [{ id := "person-2", success := true, error := none }] ∧
    (PersonService.mergePerson mergeStore "admin_id" "person-1" ["person-2"]).jobs =
      [Job.searchRemoveFace "asset-1" "person-2"] ∧
    (PersonService.mergePerson mergeStore "admin_id" "person-1" ["person-2"]).store.facesOfOn
      "person-1" "asset-1" ≤ 1 := by
  have h := mergePerson_merge_contract mergeStore "admin_id" "person-1" "person-2"
    adminPerson secondaryPerson rfl rfl (by decide) rfl (by decide) (by decide)
  exact ⟨h.1, h.2.2.1.trans (by decide), h.2.2.2.2.2.2.2.2 "asset-1"⟩
